import Mathlib

/-!
Verification of the `tda` (Technical Debt Agent) CLI.

Shallow embedding of `src/tda/cli.py` and `src/tda/logging_config.py`.
Python strings that undergo character-level manipulation (the prompty
content, the system prompt) are modelled as `List Char`; opaque payload
strings (queries, tool names, paths, message texts) as `String`.
Console output and SDK interaction are modelled as event traces.
-/

namespace TDA

/-! ## Python string primitives used by the CLI -/

/-- Python whitespace test, as used by `str.split()` / `str.strip()`.
Modelled by `Char.isWhitespace` (space, tab, CR, LF). -/
def isWS (c : Char) : Bool := c.isWhitespace

/-- Python `str.strip()`: remove leading and trailing whitespace. -/
def pyStrip (cs : List Char) : List Char :=
  ((cs.dropWhile isWS).reverse.dropWhile isWS).reverse

/-- Python `str.startswith(pre)`. -/
def pyStartsWith (pre cs : List Char) : Bool :=
  cs.take pre.length == pre

/-- `(l.dropWhile p).length ≤ l.length`, needed for termination of `pySplit`. -/
theorem dropWhile_len_le (p : Char → Bool) (l : List Char) :
    (l.dropWhile p).length ≤ l.length := by
  induction l with
  | nil => simp [List.dropWhile]
  | cons a t ih =>
    simp only [List.dropWhile]
    cases p a
    · simp
    · simp
      omega

/-- Python `str.split()` with no argument: split on runs of whitespace,
discarding empty pieces.  Each returned word is a maximal run of
non-whitespace characters. -/
def pySplit : List Char → List (List Char)
  | [] => []
  | c :: cs =>
    if isWS c then pySplit cs
    else (c :: cs.takeWhile (fun x => !isWS x)) ::
         pySplit (cs.dropWhile (fun x => !isWS x))
termination_by l => l.length
decreasing_by
  all_goals simp
  all_goals have h := dropWhile_len_le (fun x => !isWS x) cs
  all_goals omega

/-- Python `" ".join(ws)`: interleave a single space between the pieces. -/
def pyJoin : List (List Char) → List Char
  | [] => []
  | [w] => w
  | w :: ws => w ++ ' ' :: pyJoin ws

/-- The whitespace-collapsing step of `run_agent`
(`" ".join(custom_instructions.split())`, cli.py line 79). -/
def collapse (cs : List Char) : List Char := pyJoin (pySplit cs)

/-- No two adjacent characters are both whitespace. -/
def noAdjWS : List Char → Bool
  | [] => true
  | [_] => true
  | a :: b :: t => (!(isWS a && isWS b)) && noAdjWS (b :: t)

/-! ## cli.py: load_system_prompt -/

/-- `load_system_prompt` (cli.py lines 21–39), applied to the `content`
attribute of the loaded prompty template (the file read itself is I/O and
is a parameter here): if the content starts with `"system:"`, drop the
first 7 characters and strip surrounding whitespace; otherwise return the
content unchanged. -/
def load_system_prompt (content : List Char) : List Char :=
  if pyStartsWith "system:".toList content then pyStrip (content.drop 7)
  else content

/-! ## cli.py: SDK message types and the response loop of run_agent -/

/-- A content block of an `AssistantMessage`.  The loop only distinguishes
`TextBlock` from everything else (`ThinkingBlock`, `ToolUseBlock`, ...),
so all non-text blocks are one constructor. -/
inductive Block where
  | textBlock (text : String)
  | otherBlock
deriving DecidableEq

/-- A message from `client.receive_response()`.  `run_agent` distinguishes
`AssistantMessage` (with its list of content blocks), `ResultMessage`
(with its `total_cost_usd : Optional[float]`, modelled as `Option ℚ`),
and everything else. -/
inductive Message where
  | assistantMessage (content : List Block)
  | resultMessage (total_cost_usd : Option ℚ)
  | otherMessage
deriving DecidableEq

/-- A console output event.  `text` is `click.echo(block.text)`;
`cost` is `click.echo(f"[Cost: ...]", err=True)` carrying the cost value;
`logs` is `click.echo(f"Logs: {log_file}", err=True)` carrying the path. -/
inductive OutEvent where
  | text (s : String)
  | cost (c : ℚ)
  | logs (path : String)
deriving DecidableEq

/-- Output channel of `click.echo`: default is stdout, `err=True` is stderr. -/
inductive OutChan where
  | stdout
  | stderr
deriving DecidableEq

/-- Channel each output event is written to (cli.py lines 102, 106, 70):
text blocks go to stdout; the cost line and the log-path line use
`err=True`. -/
def chanOf : OutEvent → OutChan
  | .text _ => .stdout
  | .cost _ => .stderr
  | .logs _ => .stderr

/-- Inner `for block in message.content` loop (cli.py lines 100–102):
echo the text of each `TextBlock`, nothing for other blocks. -/
def printBlocks : List Block → List OutEvent
  | [] => []
  | .textBlock t :: bs => OutEvent.text t :: printBlocks bs
  | .otherBlock :: bs => printBlocks bs

/-- Body of the `async for message in client.receive_response()` loop
(cli.py lines 99–106).  A `ResultMessage` prints the cost line only when
`message.total_cost_usd` is truthy (not `None` and not `0.0`). -/
def processMessage : Message → List OutEvent
  | .assistantMessage content => printBlocks content
  | .resultMessage none => []
  | .resultMessage (some c) => if c = 0 then [] else [OutEvent.cost c]
  | .otherMessage => []

/-- All console output produced by the response loop of `run_agent` over a
given stream of messages, in order. -/
def runAgentOutput : List Message → List OutEvent
  | [] => []
  | m :: ms => processMessage m ++ runAgentOutput ms

/-! ## cli.py: ClaudeAgentOptions and the run_agent trace -/

/-- The `ClaudeAgentOptions` object built by `run_agent` (cli.py lines
81–94).  `mcp_servers` maps the name `"techdebt"` to the server object
imported from `.agent` (not in scope here), so only the key is recorded. -/
structure ClaudeAgentOptions where
  mcp_server_names : List String
  allowed_tools : List String
  cwd : String
  permission_mode : String
  system_prompt_preset : String
  system_prompt_append : List Char
deriving DecidableEq

/-- The options value built by `run_agent`, given the working directory
and the collapsed single-line instructions. -/
def mkOptions (cwd : String) (single_line_instructions : List Char) :
    ClaudeAgentOptions :=
  { mcp_server_names := ["techdebt"]
    allowed_tools := ["mcp__techdebt__extract_style_diagnostics",
                      "mcp__techdebt__extract_analyzers_diagnostics"]
    cwd := cwd
    permission_mode := "acceptEdits"
    system_prompt_preset := "claude_code"
    system_prompt_append := single_line_instructions }

/-- One step of `run_agent`'s interaction with the SDK client:
opening the session with its options, submitting a query, printing an
output event, closing the session. -/
inductive AgentEv where
  | connect (opts : ClaudeAgentOptions)
  | querySubmitted (q : String)
  | print (e : OutEvent)
  | disconnect
deriving DecidableEq

/-- `run_agent` (cli.py lines 73–106) as an interaction trace.
`promptContent` is the content of the prompty template file (I/O input).
The `async with` block connects, submits the single `client.query(query)`,
consumes the response stream printing as it goes, and disconnects. -/
def run_agent (query cwd : String) (promptContent : List Char)
    (stream : List Message) : List AgentEv :=
  let custom_instructions := load_system_prompt promptContent
  let single_line_instructions := collapse custom_instructions
  let options := mkOptions cwd single_line_instructions
  AgentEv.connect options ::
  AgentEv.querySubmitted query ::
  ((runAgentOutput stream).map AgentEv.print ++ [AgentEv.disconnect])

/-- Query events of an agent trace. -/
def queryOf : AgentEv → Option String
  | .querySubmitted q => some q
  | _ => none

/-! ## logging_config.py: setup_logging -/

/-- A value of an all-uppercase attribute of Python's `logging` module,
as reachable by `getattr(logging, log_level.upper(), logging.INFO)`:
either an integer level constant or the string `BASIC_FORMAT`. -/
inductive PyLoggingAttr where
  | levelAttr (n : Nat)
  | strAttr (s : String)
deriving DecidableEq

/-- The all-uppercase attributes of the `logging` module (the only module
attributes whose name can be produced by `str.upper()`): the level
constants `CRITICAL`, `FATAL`, `ERROR`, `WARNING`, `WARN`, `INFO`,
`DEBUG`, `NOTSET`, and the string constant `BASIC_FORMAT`. -/
def loggingModuleAttr (name : String) : Option PyLoggingAttr :=
  if name = "CRITICAL" then some (.levelAttr 50)
  else if name = "FATAL" then some (.levelAttr 50)
  else if name = "ERROR" then some (.levelAttr 40)
  else if name = "WARNING" then some (.levelAttr 30)
  else if name = "WARN" then some (.levelAttr 30)
  else if name = "INFO" then some (.levelAttr 20)
  else if name = "DEBUG" then some (.levelAttr 10)
  else if name = "NOTSET" then some (.levelAttr 0)
  else if name = "BASIC_FORMAT" then
    some (.strAttr "%(levelname)s:%(name)s:%(message)s")
  else none

/-- `getattr(logging, name, default)` restricted to names produced by
`str.upper()`. -/
def getattrLogging (name : String) (default : PyLoggingAttr) : PyLoggingAttr :=
  (loggingModuleAttr name).getD default

/-- Python's `logging._nameToLevel` registry, consulted by
`Handler.setLevel` when handed a string. -/
def nameToLevel (s : String) : Option Nat :=
  if s = "CRITICAL" then some 50
  else if s = "FATAL" then some 50
  else if s = "ERROR" then some 40
  else if s = "WARN" then some 30
  else if s = "WARNING" then some 30
  else if s = "INFO" then some 20
  else if s = "DEBUG" then some 10
  else if s = "NOTSET" then some 0
  else none

/-- Python's `logging._checkLevel`, called by `Handler.setLevel`: an int is
accepted as-is; a string must be a registered level name, otherwise
`ValueError("Unknown level: %r" % level)` is raised (the `repr` quoting of
the offending string is omitted in the model). -/
def checkLevel : PyLoggingAttr → Except String Nat
  | .levelAttr n => .ok n
  | .strAttr s =>
    match nameToLevel s with
    | some n => .ok n
    | none => .error ("Unknown level: " ++ s)

/-- Python `str.upper()` (per-character ASCII case mapping, which suffices
for level names). -/
def pyUpper (s : String) : String := String.mk (s.data.map Char.toUpper)

/-- Python `os.path.join(a, b)` for a relative second component: insert a
separator unless `a` already ends with one. -/
def osPathJoin (a b : String) : String :=
  if a.data.getLast? = some '/' then a ++ b else a ++ "/" ++ b

/-- The kind of a logging handler installed by `setup_logging`. -/
inductive HandlerKind where
  | rotatingFile (path : String) (maxBytes backupCount : Nat)
  | stream
deriving DecidableEq

/-- A logging handler: its kind, numeric level, and format string. -/
structure LogHandler where
  kind : HandlerKind
  level : Nat
  fmt : String
deriving DecidableEq

/-- The root logger: its numeric level and handler list
(`logging.root.level`, `logging.root.handlers`). -/
structure RootLogger where
  level : Nat
  handlers : List LogHandler
deriving DecidableEq

/-- `setup_logging` (logging_config.py lines 9–44) as a transformer of the
process-wide root-logger state.  `env` is `os.getenv`; `tmpdir` is
`tempfile.gettempdir()`.  Mirrors the source line by line: read the level
name (default `"INFO"`), build the log-file path, clear the existing root
handlers, create the rotating file handler (5 MB, 3 backups) and the
console stream handler, set their formatters, set the file handler to
DEBUG (10), set the console handler to
`getattr(logging, log_level.upper(), logging.INFO)` — which can raise in
`_checkLevel` —, set the root level to DEBUG and add both handlers.
Returns the new root state and the log-file path. -/
def setup_logging (env : String → Option String) (tmpdir : String)
    (root : RootLogger) : Except String (RootLogger × String) :=
  let log_level := (env "TDA_LOG_LEVEL").getD "INFO"
  let log_file := osPathJoin tmpdir "tda.log"
  let root1 : RootLogger := { root with handlers := [] }
  let file_handler : LogHandler :=
    { kind := .rotatingFile log_file (5 * 1024 * 1024) 3
      level := 10
      fmt := "%(asctime)s - %(name)s - %(levelname)s - %(message)s" }
  match checkLevel (getattrLogging (pyUpper log_level) (.levelAttr 20)) with
  | .error e => .error e
  | .ok lvl =>
    let console_handler : LogHandler :=
      { kind := .stream
        level := lvl
        fmt := "%(levelname)s - %(name)s - %(message)s" }
    let root2 : RootLogger := { root1 with level := 10 }
    let root3 : RootLogger :=
      { root2 with handlers := root2.handlers ++ [file_handler, console_handler] }
    .ok (root3, log_file)

/-! ## cli.py: main -/

/-- One observable step of `main` (cli.py lines 50–70): configuring
logging, exporting `TDA_LOG_FILE`, an agent-trace event from
`anyio.run(run_agent, query, cwd)`, or a direct `click.echo`. -/
inductive TraceEv where
  | loggingConfigured (log_file : String)
  | envSet (key value : String)
  | agentEv (e : AgentEv)
  | echoed (e : OutEvent)
deriving DecidableEq

/-- `main` (cli.py lines 50–70) as an event trace: configure logging
(which can raise, propagated as `.error`), set `TDA_LOG_FILE`, run the
agent to completion, then echo the log-file path with `err=True`. -/
def main_run (query cwd tmpdir : String) (env : String → Option String)
    (root : RootLogger) (promptContent : List Char) (stream : List Message) :
    Except String (List TraceEv) :=
  match setup_logging env tmpdir root with
  | .error e => .error e
  | .ok (_, log_file) =>
    .ok ((TraceEv.loggingConfigured log_file ::
          TraceEv.envSet "TDA_LOG_FILE" log_file ::
          (run_agent query cwd promptContent stream).map TraceEv.agentEv)
         ++ [TraceEv.echoed (OutEvent.logs log_file)])

/-- Events of a `main` trace printed on a given channel. -/
def printedOn (c : OutChan) : TraceEv → Option OutEvent
  | .agentEv (.print e) => if chanOf e = c then some e else none
  | .echoed e => if chanOf e = c then some e else none
  | _ => none

/-! ## Spec-side definitions and helper lemmas -/

/-- The text payload of an output event, when it is a text segment. -/
def textOf : OutEvent → Option String
  | .text s => some s
  | _ => none

/-- The text of a block, when it is a `TextBlock`. -/
def blockText : Block → Option String
  | .textBlock t => some t
  | .otherBlock => none

/-- Modelled from the claim wording: the texts of all `TextBlock`s of all
`AssistantMessage`s of the stream, in the order the blocks occur. -/
def specAssistantTexts : List Message → List String
  | [] => []
  | Message.assistantMessage bs :: ms =>
      bs.filterMap blockText ++ specAssistantTexts ms
  | Message.resultMessage _ :: ms => specAssistantTexts ms
  | Message.otherMessage :: ms => specAssistantTexts ms

theorem printBlocks_texts (bs : List Block) :
    (printBlocks bs).filterMap textOf = bs.filterMap blockText := by
  induction bs with
  | nil => rfl
  | cons b bs ih =>
    cases b with
    | textBlock t => simp [printBlocks, textOf, blockText, List.filterMap_cons, ih]
    | otherBlock => simp [printBlocks, blockText, List.filterMap_cons, ih]

theorem runAgentOutput_texts (ms : List Message) :
    (runAgentOutput ms).filterMap textOf = specAssistantTexts ms := by
  induction ms with
  | nil => rfl
  | cons m ms ih =>
    cases m with
    | assistantMessage bs =>
      simp [runAgentOutput, processMessage, specAssistantTexts,
            List.filterMap_append, printBlocks_texts, ih]
    | resultMessage c =>
      cases c with
      | none => simpa [runAgentOutput, processMessage, specAssistantTexts] using ih
      | some q =>
        by_cases hq : q = 0 <;>
          simp [runAgentOutput, processMessage, specAssistantTexts, hq,
                textOf, List.filterMap_cons, ih]
    | otherMessage =>
      simpa [runAgentOutput, processMessage, specAssistantTexts] using ih

/-- Keep only events written to stdout. -/
def onStdout (e : OutEvent) : Option OutEvent :=
  if chanOf e = OutChan.stdout then some e else none

theorem printBlocks_stdout (bs : List Block) :
    (printBlocks bs).filterMap onStdout = (bs.filterMap blockText).map OutEvent.text := by
  induction bs with
  | nil => rfl
  | cons b bs ih =>
    cases b with
    | textBlock t =>
      simp [printBlocks, onStdout, chanOf, blockText, List.filterMap_cons, ih]
    | otherBlock => simp [printBlocks, blockText, List.filterMap_cons, ih]

theorem runAgentOutput_stdout (ms : List Message) :
    (runAgentOutput ms).filterMap onStdout =
      (specAssistantTexts ms).map OutEvent.text := by
  induction ms with
  | nil => rfl
  | cons m ms ih =>
    cases m with
    | assistantMessage bs =>
      simp [runAgentOutput, processMessage, specAssistantTexts,
            List.filterMap_append, printBlocks_stdout, ih]
    | resultMessage c =>
      cases c with
      | none => simpa [runAgentOutput, processMessage, specAssistantTexts] using ih
      | some q =>
        by_cases hq : q = 0 <;>
          simp [runAgentOutput, processMessage, specAssistantTexts, hq,
                onStdout, chanOf, List.filterMap_cons, ih]
    | otherMessage =>
      simpa [runAgentOutput, processMessage, specAssistantTexts] using ih

theorem filterMap_queryOf_print (l : List OutEvent) :
    (l.map AgentEv.print).filterMap queryOf = [] := by
  induction l with
  | nil => rfl
  | cons e l ih => simp [queryOf, List.filterMap_cons, ih]

theorem runAgentOutput_append (xs ys : List Message) :
    runAgentOutput (xs ++ ys) = runAgentOutput xs ++ runAgentOutput ys := by
  induction xs with
  | nil => rfl
  | cons m xs ih => simp [runAgentOutput, ih]

/-! ## Lemmas about the whitespace-collapsing step -/

theorem pySplit_nil : pySplit [] = [] := by
  simp [pySplit]

theorem pySplit_cons_ws (c : Char) (cs : List Char) (h : isWS c = true) :
    pySplit (c :: cs) = pySplit cs := by
  rw [pySplit]
  simp [h]

theorem pySplit_cons_not (c : Char) (cs : List Char) (h : isWS c = false) :
    pySplit (c :: cs) =
      (c :: cs.takeWhile (fun x => !isWS x)) ::
        pySplit (cs.dropWhile (fun x => !isWS x)) := by
  rw [pySplit]
  simp [h]

theorem pyJoin_single (w : List Char) : pyJoin [w] = w := rfl

theorem pyJoin_cons (w w2 : List Char) (ws : List (List Char)) :
    pyJoin (w :: w2 :: ws) = w ++ ' ' :: pyJoin (w2 :: ws) := rfl

/-- Every word produced by `pySplit` is nonempty and whitespace-free. -/
theorem pySplit_clean (cs : List Char) :
    ∀ w ∈ pySplit cs, w ≠ [] ∧ ∀ c ∈ w, isWS c = false := by
  induction cs using pySplit.induct with
  | case1 => simp [pySplit_nil]
  | case2 c cs h ih =>
    rw [pySplit_cons_ws c cs h]
    exact ih
  | case3 c cs h ih =>
    have hc : isWS c = false := by simpa using h
    rw [pySplit_cons_not c cs hc]
    intro w hw
    rcases List.mem_cons.1 hw with hw | hw
    · subst hw
      refine ⟨by simp, ?_⟩
      intro x hx
      rcases List.mem_cons.1 hx with hx | hx
      · subst hx; exact hc
      · have := List.mem_takeWhile_imp hx
        simpa using this
    · exact ih w hw

theorem takeWhile_notWS_append (w rest : List Char)
    (h : ∀ c ∈ w, isWS c = false) :
    (w ++ rest).takeWhile (fun x => !isWS x) =
      w ++ rest.takeWhile (fun x => !isWS x) := by
  induction w with
  | nil => simp
  | cons a w ih =>
    have ha : isWS a = false := h a (by simp)
    simp only [List.cons_append, List.takeWhile_cons, ha]
    simp [ih (fun c hc => h c (by simp [hc]))]

theorem dropWhile_notWS_append (w rest : List Char)
    (h : ∀ c ∈ w, isWS c = false) :
    (w ++ rest).dropWhile (fun x => !isWS x) =
      rest.dropWhile (fun x => !isWS x) := by
  induction w with
  | nil => simp
  | cons a w ih =>
    have ha : isWS a = false := h a (by simp)
    simp only [List.cons_append, List.dropWhile_cons, ha]
    simp [ih (fun c hc => h c (by simp [hc]))]

theorem takeWhile_notWS_all (w : List Char) (h : ∀ c ∈ w, isWS c = false) :
    w.takeWhile (fun x => !isWS x) = w := by
  have := takeWhile_notWS_append w [] h
  simpa using this

theorem dropWhile_notWS_all (w : List Char) (h : ∀ c ∈ w, isWS c = false) :
    w.dropWhile (fun x => !isWS x) = [] := by
  have := dropWhile_notWS_append w [] h
  simpa using this

/-- Splitting the single-space join of nonempty whitespace-free words
recovers exactly those words: the round trip underlying idempotence. -/
theorem pySplit_pyJoin : ∀ ws : List (List Char),
    (∀ w ∈ ws, w ≠ [] ∧ ∀ c ∈ w, isWS c = false) →
    pySplit (pyJoin ws) = ws := by
  intro ws
  induction ws with
  | nil => intro _; simpa [pyJoin] using pySplit_nil
  | cons w ws ih =>
    intro h
    obtain ⟨hne, hclean⟩ := h w (by simp)
    obtain ⟨c, w2, rfl⟩ : ∃ c w2, w = c :: w2 := by
      cases w with
      | nil => exact absurd rfl hne
      | cons c w2 => exact ⟨c, w2, rfl⟩
    have hc : isWS c = false := hclean c (by simp)
    have hw2 : ∀ x ∈ w2, isWS x = false := fun x hx => hclean x (by simp [hx])
    cases ws with
    | nil =>
      rw [pyJoin_single, pySplit_cons_not c w2 hc,
          takeWhile_notWS_all w2 hw2, dropWhile_notWS_all w2 hw2, pySplit_nil]
    | cons w3 ws3 =>
      have hws : ∀ u ∈ w3 :: ws3, u ≠ [] ∧ ∀ c ∈ u, isWS c = false :=
        fun u hu => h u (by simp [hu])
      have hsp : isWS ' ' = false → False := by decide
      rw [pyJoin_cons, List.cons_append, pySplit_cons_not c _ hc,
          takeWhile_notWS_append w2 _ hw2, dropWhile_notWS_append w2 _ hw2]
      simp only [List.takeWhile_cons, List.dropWhile_cons]
      have hsp2 : isWS ' ' = true := by decide
      simp only [hsp2, Bool.not_true, Bool.false_eq_true, if_false, if_true,
                 reduceIte, List.append_nil]
      rw [pySplit_cons_ws ' ' _ hsp2, ih hws]

/-- Appending a whitespace-free run in front preserves `noAdjWS`. -/
theorem noAdjWS_append (w r : List Char) (hw : ∀ c ∈ w, isWS c = false)
    (hr : noAdjWS r = true) : noAdjWS (w ++ r) = true := by
  induction w with
  | nil => simpa
  | cons a w ih =>
    have ha : isWS a = false := hw a (by simp)
    have ih2 := ih (fun c hc => hw c (by simp [hc]))
    rw [List.cons_append]
    cases hwr : w ++ r with
    | nil => simp [noAdjWS]
    | cons b t =>
      rw [hwr] at ih2
      simp [noAdjWS, ha, ih2]

theorem pyJoin_cons_head (c : Char) (w2 : List Char) (ws : List (List Char)) :
    ∃ t, pyJoin ((c :: w2) :: ws) = c :: t := by
  cases ws with
  | nil => exact ⟨w2, rfl⟩
  | cons w3 ws3 => exact ⟨w2 ++ ' ' :: pyJoin (w3 :: ws3), rfl⟩

/-- The single-space join of nonempty whitespace-free words has no two
adjacent whitespace characters. -/
theorem noAdjWS_pyJoin : ∀ ws : List (List Char),
    (∀ w ∈ ws, w ≠ [] ∧ ∀ c ∈ w, isWS c = false) →
    noAdjWS (pyJoin ws) = true := by
  intro ws
  induction ws with
  | nil => intro _; rfl
  | cons w ws ih =>
    intro h
    obtain ⟨hne, hclean⟩ := h w (by simp)
    have hws : ∀ u ∈ ws, u ≠ [] ∧ ∀ c ∈ u, isWS c = false :=
      fun u hu => h u (by simp [hu])
    cases ws with
    | nil =>
      rw [pyJoin_single]
      simpa using noAdjWS_append w [] hclean rfl
    | cons w3 ws3 =>
      rw [pyJoin_cons]
      apply noAdjWS_append w _ hclean
      obtain ⟨hne3, hclean3⟩ := hws w3 (by simp)
      obtain ⟨c3, w3t, rfl⟩ : ∃ c3 w3t, w3 = c3 :: w3t := by
        cases w3 with
        | nil => exact absurd rfl hne3
        | cons c3 w3t => exact ⟨c3, w3t, rfl⟩
      obtain ⟨t, ht⟩ := pyJoin_cons_head c3 w3t ws3
      have hc3 : isWS c3 = false := hclean3 c3 (by simp)
      have hih := ih hws
      rw [ht] at hih ⊢
      simp [noAdjWS, hc3, hih]

/-- Every character of the join is a separator space or a word character. -/
theorem mem_pyJoin_parts : ∀ (ws : List (List Char)) (c : Char), c ∈ pyJoin ws →
    c = ' ' ∨ ∃ w ∈ ws, c ∈ w := by
  intro ws
  induction ws with
  | nil => intro c hc; simp [pyJoin] at hc
  | cons w ws ih =>
    intro c hc
    cases ws with
    | nil =>
      right
      exact ⟨w, by simp, by simpa [pyJoin_single] using hc⟩
    | cons w3 ws3 =>
      rw [pyJoin_cons] at hc
      rcases List.mem_append.1 hc with h | h
      · right; exact ⟨w, by simp, h⟩
      · rcases List.mem_cons.1 h with h | h
        · left; exact h
        · rcases ih c h with h | ⟨w2, hw2, hcw⟩
          · left; exact h
          · right; exact ⟨w2, by simp [hw2], hcw⟩

/-! ## Claims -/

/-- C1: every `TextBlock` of every `AssistantMessage` consumed by
`run_agent`'s response loop is printed, the printed text segments appear
in the order the blocks occur in the stream, non-text blocks print
nothing, and messages that are neither `AssistantMessage` nor
`ResultMessage` print nothing. -/
theorem c1_text_blocks_printed_in_order :
    (∀ ms : List Message,
      (runAgentOutput ms).filterMap textOf = specAssistantTexts ms) ∧
    (∀ bs : List Block, printBlocks (Block.otherBlock :: bs) = printBlocks bs) ∧
    processMessage Message.otherMessage = [] := by
  refine ⟨runAgentOutput_texts, ?_, rfl⟩
  intro bs
  rfl

/-- C2 counterexample: a stream ending with a `ResultMessage` whose
`total_cost_usd` is `None` produces no cost summary line at all, refuting
the claim that every stream ending with a `ResultMessage` gets one. -/
theorem c2_cost_line_counterexample :
    [Message.resultMessage none].getLast? = some (Message.resultMessage none) ∧
    runAgentOutput [Message.resultMessage none] = [] :=
  ⟨rfl, rfl⟩

/-- C2 (amended): for every response stream that ends with a
`ResultMessage` whose `total_cost_usd` is present and nonzero, `run_agent`
prints exactly one final cost summary line carrying that cost, after all
other output of the stream (in particular after all text segments). -/
theorem c2_cost_line_after_output (ms : List Message) (c : ℚ) (h : c ≠ 0) :
    runAgentOutput (ms ++ [Message.resultMessage (some c)]) =
      runAgentOutput ms ++ [OutEvent.cost c] := by
  rw [runAgentOutput_append]
  simp [runAgentOutput, processMessage, h]

theorem c2_cost_line_witness :
    (1 : ℚ) ≠ 0 ∧
    runAgentOutput ([Message.assistantMessage [Block.textBlock "done"]] ++
        [Message.resultMessage (some 1)]) =
      runAgentOutput [Message.assistantMessage [Block.textBlock "done"]] ++
        [OutEvent.cost 1] :=
  ⟨one_ne_zero, c2_cost_line_after_output _ 1 one_ne_zero⟩

/-- C3: if the template content starts with `"system:"`,
`load_system_prompt` returns the content with the first 7 characters
removed and leading/trailing whitespace stripped; otherwise it returns
the content unchanged. -/
theorem c3_strip_marker (content : List Char) :
    (pyStartsWith "system:".toList content = true →
      load_system_prompt content = pyStrip (content.drop 7)) ∧
    (pyStartsWith "system:".toList content = false →
      load_system_prompt content = content) := by
  constructor
  · intro h
    simp only [load_system_prompt, h]
    simp
  · intro h
    simp only [load_system_prompt, h]
    simp

theorem c3_strip_marker_witness :
    pyStartsWith "system:".toList "system:  hi  ".toList = true ∧
    load_system_prompt "system:  hi  ".toList =
      pyStrip ("system:  hi  ".toList.drop 7) :=
  ⟨by decide, (c3_strip_marker "system:  hi  ".toList).1 (by decide)⟩

/-- C4: the whitespace-collapsing step of `run_agent`
(`" ".join(custom_instructions.split())`) yields a string with no newline
character and no two adjacent whitespace characters, and the operation is
idempotent. -/
theorem c4_collapse_single_line_idempotent (cs : List Char) :
    '\n' ∉ collapse cs ∧ noAdjWS (collapse cs) = true ∧
    collapse (collapse cs) = collapse cs := by
  have hclean := pySplit_clean cs
  refine ⟨?_, ?_, ?_⟩
  · intro hmem
    rcases mem_pyJoin_parts (pySplit cs) '\n' hmem with h | ⟨w, hw, hcw⟩
    · exact absurd h (by decide)
    · have hfalse := (hclean w hw).2 '\n' hcw
      exact absurd hfalse (by decide)
  · exact noAdjWS_pyJoin _ hclean
  · show pyJoin (pySplit (pyJoin (pySplit cs))) = pyJoin (pySplit cs)
    rw [pySplit_pyJoin (pySplit cs) hclean]

/-- C5: the options object handed to the agent client permits exactly the
two tool identifiers `mcp__techdebt__extract_style_diagnostics` and
`mcp__techdebt__extract_analyzers_diagnostics`, and no others. -/
theorem c5_allowed_tools_exact (query cwd : String) (promptContent : List Char)
    (stream : List Message) (opts : ClaudeAgentOptions)
    (h : AgentEv.connect opts ∈ run_agent query cwd promptContent stream) :
    opts.allowed_tools = ["mcp__techdebt__extract_style_diagnostics",
                          "mcp__techdebt__extract_analyzers_diagnostics"] ∧
    opts.allowed_tools.length = 2 ∧
    (∀ t, t ∈ opts.allowed_tools ↔
      (t = "mcp__techdebt__extract_style_diagnostics" ∨
       t = "mcp__techdebt__extract_analyzers_diagnostics")) := by
  have hopts : opts = mkOptions cwd (collapse (load_system_prompt promptContent)) := by
    simp [run_agent] at h
    exact h
  subst hopts
  refine ⟨rfl, rfl, ?_⟩
  intro t
  simp [mkOptions]

theorem c5_allowed_tools_witness :
    AgentEv.connect (mkOptions "." (collapse (load_system_prompt []))) ∈
      run_agent "q" "." [] [] ∧
    (mkOptions "." (collapse (load_system_prompt []))).allowed_tools =
      ["mcp__techdebt__extract_style_diagnostics",
       "mcp__techdebt__extract_analyzers_diagnostics"] :=
  ⟨by simp [run_agent],
   (c5_allowed_tools_exact "q" "." [] [] _ (by simp [run_agent])).1⟩

/-- C6: after a successful `setup_logging` the root logger has exactly two
handlers — the rotating file handler on `tda.log` in the temp directory at
level DEBUG and a console stream handler — and the result is independent
of the pre-existing root state, so repeated calls never accumulate
handlers. -/
theorem c6_two_handlers (env : String → Option String) (tmpdir : String)
    (root : RootLogger) (r : RootLogger × String)
    (h : setup_logging env tmpdir root = .ok r) :
    (r.1.handlers.length = 2 ∧
     ∃ lvl, r.1.handlers =
       [⟨HandlerKind.rotatingFile (osPathJoin tmpdir "tda.log")
           (5 * 1024 * 1024) 3, 10,
         "%(asctime)s - %(name)s - %(levelname)s - %(message)s"⟩,
        ⟨HandlerKind.stream, lvl,
         "%(levelname)s - %(name)s - %(message)s"⟩]) ∧
    ∀ root2, setup_logging env tmpdir root2 = setup_logging env tmpdir root := by
  constructor
  · simp only [setup_logging] at h
    split at h
    · exact absurd h (by simp)
    · cases h
      exact ⟨rfl, _, rfl⟩
  · intro root2
    simp only [setup_logging]

theorem c6_two_handlers_witness :
    setup_logging (fun _ => none) "/tmp" ⟨55, [⟨HandlerKind.stream, 5, "junk"⟩]⟩ =
      .ok (⟨10, [⟨HandlerKind.rotatingFile "/tmp/tda.log" (5 * 1024 * 1024) 3, 10,
                  "%(asctime)s - %(name)s - %(levelname)s - %(message)s"⟩,
                 ⟨HandlerKind.stream, 20,
                  "%(levelname)s - %(name)s - %(message)s"⟩]⟩,
            "/tmp/tda.log") ∧
    ((⟨10, [⟨HandlerKind.rotatingFile "/tmp/tda.log" (5 * 1024 * 1024) 3, 10,
             "%(asctime)s - %(name)s - %(levelname)s - %(message)s"⟩,
            ⟨HandlerKind.stream, 20,
             "%(levelname)s - %(name)s - %(message)s"⟩]⟩,
      "/tmp/tda.log") : RootLogger × String).1.handlers.length = 2 :=
  ⟨by rfl,
   (c6_two_handlers (fun _ => none) "/tmp"
     ⟨55, [⟨HandlerKind.stream, 5, "junk"⟩]⟩ _ (by rfl)).1.1⟩

/-- C8: `run_agent` submits exactly one query to the agent client: its
interaction trace contains a single `querySubmitted` event, carrying the
given query. -/
theorem c8_single_query (query cwd : String) (promptContent : List Char)
    (stream : List Message) :
    (run_agent query cwd promptContent stream).filterMap queryOf = [query] := by
  simp [run_agent, queryOf, List.filterMap_cons, List.filterMap_append,
        filterMap_queryOf_print]

/-- C7: when `setup_logging` succeeds, the trace of `main` is exactly:
logging configured first, the `TDA_LOG_FILE` export, then the whole agent
run, and the log-file-path line as the very last event — so the log path
is printed only after all agent output. -/
theorem c7_log_path_last (query cwd tmpdir : String)
    (env : String → Option String) (root : RootLogger)
    (promptContent : List Char) (stream : List Message)
    (r : RootLogger × String) (h : setup_logging env tmpdir root = .ok r) :
    main_run query cwd tmpdir env root promptContent stream =
      .ok ((TraceEv.loggingConfigured r.2 ::
            TraceEv.envSet "TDA_LOG_FILE" r.2 ::
            (run_agent query cwd promptContent stream).map TraceEv.agentEv)
           ++ [TraceEv.echoed (OutEvent.logs r.2)]) ∧
    ((TraceEv.loggingConfigured r.2 ::
      TraceEv.envSet "TDA_LOG_FILE" r.2 ::
      (run_agent query cwd promptContent stream).map TraceEv.agentEv)
     ++ [TraceEv.echoed (OutEvent.logs r.2)]).getLast? =
      some (TraceEv.echoed (OutEvent.logs r.2)) := by
  constructor
  · simp [main_run, h]
  · exact List.getLast?_concat _

theorem c7_log_path_last_witness :
    setup_logging (fun _ => none) "/tmp" ⟨0, []⟩ =
      .ok (⟨10, [⟨HandlerKind.rotatingFile "/tmp/tda.log" (5 * 1024 * 1024) 3, 10,
                  "%(asctime)s - %(name)s - %(levelname)s - %(message)s"⟩,
                 ⟨HandlerKind.stream, 20,
                  "%(levelname)s - %(name)s - %(message)s"⟩]⟩,
            "/tmp/tda.log") ∧
    main_run "q" "." "/tmp" (fun _ => none) ⟨0, []⟩ [] [] =
      .ok ((TraceEv.loggingConfigured "/tmp/tda.log" ::
            TraceEv.envSet "TDA_LOG_FILE" "/tmp/tda.log" ::
            (run_agent "q" "." [] []).map TraceEv.agentEv)
           ++ [TraceEv.echoed (OutEvent.logs "/tmp/tda.log")]) :=
  ⟨by rfl,
   (c7_log_path_last "q" "." "/tmp" (fun _ => none) ⟨0, []⟩ [] [] _ (by rfl)).1⟩

/-- The environment seen by `setup_logging` when `TDA_LOG_LEVEL` is set to
`v` and nothing else is set. -/
def envWith (v : String) : String → Option String :=
  fun k => if k = "TDA_LOG_LEVEL" then some v else none

/-- C9 counterexample: `TDA_LOG_LEVEL=basic_format` uppercases to
`BASIC_FORMAT`, a string attribute of the `logging` module, so
`getattr(logging, ..., logging.INFO)` finds it, `Handler.setLevel` rejects
it with `ValueError`, and `setup_logging` fails — refuting "never fails on
an invalid level name". -/
theorem c9_level_fallback_counterexample :
    setup_logging (envWith "basic_format") "/tmp" ⟨0, []⟩ =
      .error ("Unknown level: " ++ "%(levelname)s:%(name)s:%(message)s") := by
  rfl

/-- C9 (amended): for every `TDA_LOG_LEVEL` value whose uppercase form is
not an attribute of the `logging` module, `setup_logging` succeeds and the
console handler level falls back to INFO (20); when the uppercase form is
an integer level attribute, that level is used; in every successful case
the file handler level is DEBUG (10); but when the uppercase form is a
string attribute (`BASIC_FORMAT`) that is not a registered level name,
`setup_logging` raises instead of falling back. -/
theorem c9_level_fallback (v tmpdir : String) (root : RootLogger) :
    (loggingModuleAttr (pyUpper v) = none →
      (setup_logging (envWith v) tmpdir root).map
          (fun r => r.1.handlers.map LogHandler.level) = .ok [10, 20]) ∧
    (∀ n, loggingModuleAttr (pyUpper v) = some (.levelAttr n) →
      (setup_logging (envWith v) tmpdir root).map
          (fun r => r.1.handlers.map LogHandler.level) = .ok [10, n]) ∧
    (∀ s, loggingModuleAttr (pyUpper v) = some (.strAttr s) →
      nameToLevel s = none →
      setup_logging (envWith v) tmpdir root =
        .error ("Unknown level: " ++ s)) := by
  refine ⟨?_, ?_, ?_⟩
  · intro h
    simp [setup_logging, envWith, getattrLogging, h, checkLevel, Except.map]
  · intro n h
    simp [setup_logging, envWith, getattrLogging, h, checkLevel, Except.map]
  · intro s h hs
    simp [setup_logging, envWith, getattrLogging, h, checkLevel, hs]

theorem c9_level_fallback_witness :
    loggingModuleAttr (pyUpper "warn bogus") = none ∧
    (setup_logging (envWith "warn bogus") "/tmp" ⟨0, []⟩).map
        (fun r => r.1.handlers.map LogHandler.level) = .ok [10, 20] :=
  ⟨by decide, (c9_level_fallback "warn bogus" "/tmp" ⟨0, []⟩).1 (by decide)⟩

/-- C10: on a successful run, the events `main` prints to stdout are
exactly the agent text segments, in order; the cost summary and the
log-file-path line are written to stderr. -/
theorem c10_stdout_only_texts (query cwd tmpdir : String)
    (env : String → Option String) (root : RootLogger)
    (promptContent : List Char) (stream : List Message)
    (t : List TraceEv)
    (h : main_run query cwd tmpdir env root promptContent stream = .ok t) :
    t.filterMap (printedOn OutChan.stdout) =
      (specAssistantTexts stream).map OutEvent.text ∧
    (∀ c : ℚ, chanOf (OutEvent.cost c) = OutChan.stderr) ∧
    (∀ p : String, chanOf (OutEvent.logs p) = OutChan.stderr) := by
  refine ⟨?_, fun _ => rfl, fun _ => rfl⟩
  simp only [main_run] at h
  split at h
  · exact absurd h (by simp)
  · cases h
    rename_i lf hok
    simp only [List.filterMap_append, List.filterMap_cons, printedOn,
               List.filterMap_nil, run_agent, List.map_append, List.map_cons,
               List.map_map, List.filterMap_map]
    have hcomp :
        (List.filterMap (printedOn OutChan.stdout ∘ TraceEv.agentEv ∘ AgentEv.print)
          (runAgentOutput stream)) =
        (specAssistantTexts stream).map OutEvent.text := by
      have : (printedOn OutChan.stdout ∘ TraceEv.agentEv ∘ AgentEv.print) = onStdout := by
        funext e
        simp [printedOn, onStdout]
      rw [this]
      exact runAgentOutput_stdout stream
    simpa [printedOn, chanOf] using hcomp

theorem c10_stdout_only_texts_witness :
    main_run "q" "." "/tmp" (fun _ => none) ⟨0, []⟩ []
        [Message.assistantMessage [Block.textBlock "hi"]] =
      .ok ((TraceEv.loggingConfigured "/tmp/tda.log" ::
            TraceEv.envSet "TDA_LOG_FILE" "/tmp/tda.log" ::
            (run_agent "q" "."
              [] [Message.assistantMessage [Block.textBlock "hi"]]).map
              TraceEv.agentEv)
           ++ [TraceEv.echoed (OutEvent.logs "/tmp/tda.log")]) ∧
    ((TraceEv.loggingConfigured "/tmp/tda.log" ::
      TraceEv.envSet "TDA_LOG_FILE" "/tmp/tda.log" ::
      (run_agent "q" "."
        [] [Message.assistantMessage [Block.textBlock "hi"]]).map
        TraceEv.agentEv)
     ++ [TraceEv.echoed (OutEvent.logs "/tmp/tda.log")]).filterMap
        (printedOn OutChan.stdout) =
      (specAssistantTexts [Message.assistantMessage [Block.textBlock "hi"]]).map
        OutEvent.text :=
  ⟨by rfl,
   (c10_stdout_only_texts "q" "." "/tmp" (fun _ => none) ⟨0, []⟩ []
     [Message.assistantMessage [Block.textBlock "hi"]] _ (by rfl)).1⟩

end TDA
